import Mathlib

/-!
Verification of the device-path encoding/decoding engine
(`src/proto/loaded_image/device_path.rs`).

A chain buffer is modelled as a `List Nat` of bytes; a node reference
(`&DevicePath` in the source) is modelled as the suffix of the buffer that
starts at the node, so the pointer arithmetic `self + total_length` becomes
`List.drop`.  Reading memory past the end of the list yields 0 (the source
performs the corresponding reads without bounds checks; all theorems about
well-formed chains stay inside the buffer).
-/

namespace DevicePath

/-- Read one byte of a buffer (out-of-range reads yield 0). -/
def readByte (buf : List Nat) (i : Nat) : Nat := buf.getD i 0

/-- The `device_type` byte of the node at the head of the buffer. -/
def device_type (buf : List Nat) : Nat := readByte buf 0

/-- The `sub_type` byte of the node at the head of the buffer. -/
def sub_type (buf : List Nat) : Nat := readByte buf 1

/-- `DevicePath::len`: the `total_length` field, a little-endian `u16`
stored in bytes 2 and 3 of the node header. -/
def nodeLen (buf : List Nat) : Nat := readByte buf 2 + 256 * readByte buf 3

/-- `DevicePath::next`: if the node is `End` (0x7F), continue only for
sub-type `EndInstance` (0x01); both `EndEntire` (0xFF) and every
unrecognized `End` sub-type (`Err(_)` of `try_from`) are terminal.
A non-`End` node always continues `total_length` bytes further. -/
def next (buf : List Nat) : Option (List Nat) :=
  if device_type buf = 127 then
    if sub_type buf = 1 then some (buf.drop (nodeLen buf)) else none
  else
    some (buf.drop (nodeLen buf))

/-- `DevicePath::walk`: visit the current node, then recurse on `next`.
The source recursion is unbounded; `fuel` bounds the recursion depth and
the result is `none` when the fuel is exhausted before a terminal node. -/
def walk : Nat → List Nat → Option (List (List Nat))
  | 0, _ => none
  | fuel + 1, buf =>
    match next buf with
    | none => some [buf]
    | some b => (walk fuel b).map (fun l => buf :: l)

/-- The chain byte length computed by `DevicePath::append`:
`a.walk(&mut |x| alen += x.len())`, i.e. the sum of `total_length` over all
visited nodes (terminator included). -/
def chainByteLength (fuel : Nat) (buf : List Nat) : Option Nat :=
  (walk fuel buf).map (fun l => (l.map nodeLen).sum)

/-- `DevicePath::stamp`: the bytes written for one node: `device_type`,
`sub_type`, the `u16` total length `(4 + payload length)` in little-endian
order (the `as u16` cast truncates modulo 2^16), then the payload verbatim. -/
def stamp (dt st : Nat) (p : List Nat) : List Nat :=
  dt :: st :: ((4 + p.length) % 65536) % 256 :: (((4 + p.length) % 65536) / 256) % 256 :: p

/-- A typed node before encoding (`DevicePathPayload`: a device type,
a sub-type and the payload bytes of the `Payload` implementation). -/
structure Node where
  device_type : Nat
  sub_type : Nat
  payload : List Nat
deriving DecidableEq

/-- The bytes `stamp` writes for a node. -/
def Node.bytes (n : Node) : List Nat := stamp n.device_type n.sub_type n.payload

/-- The `End`/`EndEntire` terminator record stamped at the end of every
built chain: `stamp(End, EndEntire, ())`. -/
def endEntireNode : List Nat := stamp 127 255 []

/-- `DevicePath::new1`: stamp the node, then stamp an `End`/`EndEntire`
terminator immediately after it. -/
def new1 (x : Node) : List Nat := x.bytes ++ endEntireNode

/-- `DevicePath::new2`: stamp the two nodes in the given order, then the
`End`/`EndEntire` terminator. -/
def new2 (x y : Node) : List Nat := x.bytes ++ y.bytes ++ endEntireNode

/-- `DevicePath::append`: compute both chain byte lengths by walking, then
copy the first `alen - 4` bytes of `a` followed by the first `blen` bytes
of `b` into a fresh buffer of `alen + blen - 4` bytes. -/
def append (fuel : Nat) (a b : List Nat) : Option (List Nat) :=
  match chainByteLength fuel a, chainByteLength fuel b with
  | some alen, some blen => some (a.take (alen - 4) ++ b.take blen)
  | _, _ => none

/-- The buffer of a well-formed chain holding the given nodes: the nodes
stamped back-to-back followed by the `End`/`EndEntire` terminator. -/
def serializeChain : List Node → List Nat
  | [] => endEntireNode
  | n :: ns => n.bytes ++ serializeChain ns

/-- The node bytes of a chain without its terminator. -/
def chainBody : List Node → List Nat
  | [] => []
  | n :: ns => n.bytes ++ chainBody ns

/-- The suffixes visited when walking a well-formed chain: one suffix per
node, then the terminator suffix. -/
def chainSuffixes : List Node → List (List Nat)
  | [] => [endEntireNode]
  | n :: ns => serializeChain (n :: ns) :: chainSuffixes ns

/-- Sum of the encoded sizes (`4 + payload length`) of a list of nodes. -/
def sizeSum (ns : List Node) : Nat := (ns.map (fun n => 4 + n.payload.length)).sum

/-- A node whose bytes are in range and whose payload fits the 16-bit
length budget alongside the 4-byte header. -/
def wfNode (n : Node) : Prop :=
  n.device_type < 256 ∧ n.sub_type < 256 ∧ n.payload.length ≤ 65531 ∧
    ∀ b ∈ n.payload, b < 256

/-- A node from which traversal continues: either not `End`, or the
`End`/`EndInstance` separator. -/
def continues (n : Node) : Prop := n.device_type = 127 → n.sub_type = 1

/-- All nodes of a chain body are well formed and non-terminal. -/
def wfChain (ns : List Node) : Prop := ∀ n ∈ ns, wfNode n ∧ continues n

instance (n : Node) : Decidable (wfNode n) := by
  unfold wfNode
  infer_instance

instance (n : Node) : Decidable (continues n) := by
  unfold continues
  infer_instance

instance (ns : List Node) : Decidable (wfChain ns) := by
  unfold wfChain
  infer_instance

-- Payload shapes (the `Payload` implementations) =============================

/-- `PCIDevicePath { function: u8, device: u8 }`. -/
structure PCIDevicePath where
  function : Nat
  device : Nat
deriving DecidableEq

/-- `ACPIDevicePath { hid: u32, uid: u32 }`. -/
structure ACPIDevicePath where
  hid : Nat
  uid : Nat
deriving DecidableEq

/-- `MACDevicePath { address: [u8; 32], iftype: HardwareType }`. -/
structure MACDevicePath where
  address : List Nat
  iftype : Nat
deriving DecidableEq

/-- `IPv4DevicePath` with its eight fields in declaration order. -/
structure IPv4DevicePath where
  local_ip : List Nat
  remote_ip : List Nat
  local_port : Nat
  remote_port : Nat
  protocol : Nat
  static_ip : Nat
  gateway_ip : List Nat
  subnet_mask : List Nat
deriving DecidableEq

/-- Little-endian bytes of a `u16`. -/
def le16 (n : Nat) : List Nat := [n % 256, n / 256 % 256]

/-- Little-endian bytes of a `u32`. -/
def le32 (n : Nat) : List Nat :=
  [n % 256, n / 256 % 256, n / 65536 % 256, n / 16777216 % 256]

/-- The packed (`repr(C)`) byte image of a `PCIDevicePath`. -/
def PCIDevicePath.bytes (p : PCIDevicePath) : List Nat := [p.function, p.device]

/-- The packed byte image of an `ACPIDevicePath`. -/
def ACPIDevicePath.bytes (a : ACPIDevicePath) : List Nat := le32 a.hid ++ le32 a.uid

/-- The packed byte image of a `MACDevicePath` (32 address bytes, then the
hardware type byte). -/
def MACDevicePath.bytes (m : MACDevicePath) : List Nat := m.address ++ [m.iftype]

/-- The packed byte image of an `IPv4DevicePath` (no padding; `u16` fields
little-endian). -/
def IPv4DevicePath.bytes (p : IPv4DevicePath) : List Nat :=
  p.local_ip ++ p.remote_ip ++ le16 p.local_port ++ le16 p.remote_port ++
    [p.protocol, p.static_ip] ++ p.gateway_ip ++ p.subnet_mask

/-- Read a little-endian `u16` at offset `i`. -/
def readLE16 (bs : List Nat) (i : Nat) : Nat := readByte bs i + 256 * readByte bs (i + 1)

/-- Read a little-endian `u32` at offset `i`. -/
def readLE32 (bs : List Nat) (i : Nat) : Nat :=
  readByte bs i + 256 * readByte bs (i + 1) + 65536 * readByte bs (i + 2) +
    16777216 * readByte bs (i + 3)

/-- `DevicePath::payload::<PCIDevicePath>`: reinterpret the payload bytes. -/
def decodePCI (bs : List Nat) : PCIDevicePath := ⟨readByte bs 0, readByte bs 1⟩

/-- `DevicePath::payload::<ACPIDevicePath>`. -/
def decodeACPI (bs : List Nat) : ACPIDevicePath := ⟨readLE32 bs 0, readLE32 bs 4⟩

/-- `DevicePath::payload::<MACDevicePath>`. -/
def decodeMAC (bs : List Nat) : MACDevicePath := ⟨bs.take 32, readByte bs 32⟩

/-- `DevicePath::payload::<IPv4DevicePath>`. -/
def decodeIPv4 (bs : List Nat) : IPv4DevicePath :=
  ⟨bs.take 4, (bs.drop 4).take 4, readLE16 bs 8, readLE16 bs 10,
    readByte bs 12, readByte bs 13, (bs.drop 14).take 4, (bs.drop 18).take 4⟩

-- Diagnostic decoder (the `Debug` implementation) ============================

/-- A value printed by the `Debug` implementation: a raw number, an enum
variant name, or a decoded payload structure. -/
inductive DbgValue where
  | num : Nat → DbgValue
  | vname : String → DbgValue
  | pci : PCIDevicePath → DbgValue
  | acpi : ACPIDevicePath → DbgValue
  | mac : MACDevicePath → DbgValue
  | ipv4 : IPv4DevicePath → DbgValue
deriving DecidableEq

/-- `HardwarePathSubType::try_from`, as the variant name when recognized. -/
def hardwareSubName (st : Nat) : Option String :=
  if st = 1 then some "PCI" else if st = 2 then some "PCCARD"
  else if st = 3 then some "MemoryMapped" else if st = 4 then some "Vendor"
  else if st = 5 then some "Controller" else if st = 6 then some "BMC"
  else none

/-- `ACPIPathSubType::try_from`. -/
def acpiSubName (st : Nat) : Option String :=
  if st = 1 then some "ACPI" else if st = 2 then some "ExpandedACPI"
  else if st = 3 then some "ADR" else none

/-- `MessagingPathSubType::try_from` (values 7 and 8 are not defined). -/
def messagingSubName (st : Nat) : Option String :=
  if st = 1 then some "ATAPI" else if st = 2 then some "SCSI"
  else if st = 3 then some "FibreChannel" else if st = 4 then some "IEEE1394"
  else if st = 5 then some "USB" else if st = 6 then some "I20"
  else if st = 9 then some "InfiniBand" else if st = 10 then some "Vendor"
  else if st = 11 then some "MAC" else if st = 12 then some "IPv4"
  else if st = 13 then some "IPv6" else if st = 14 then some "UART"
  else if st = 15 then some "USBClass" else if st = 16 then some "WWID"
  else if st = 17 then some "LogicalUnit" else if st = 18 then some "SATA"
  else if st = 19 then some "ISCSI" else if st = 20 then some "VLAN"
  else if st = 21 then some "FiberChannelEx" else if st = 22 then some "SASEx"
  else if st = 23 then some "NVME" else if st = 24 then some "URI"
  else if st = 25 then some "UFS" else if st = 26 then some "SD"
  else if st = 27 then some "Bluetooth" else if st = 28 then some "Wireless"
  else if st = 29 then some "EMMC" else none

/-- `MediaPathSubType::try_from`. -/
def mediaSubName (st : Nat) : Option String :=
  if st = 1 then some "HardDrive" else if st = 2 then some "CDROM"
  else if st = 3 then some "Vendor" else if st = 4 then some "File"
  else if st = 5 then some "MediaProtocol" else if st = 6 then some "PWIGFirmware"
  else if st = 7 then some "PWIGFirmwareVolume"
  else if st = 8 then some "RelativeOffsetRange" else if st = 9 then some "RAMDisk"
  else none

/-- `BIOSBootSpecPathSubType::try_from`. -/
def biosSubName (st : Nat) : Option String :=
  if st = 1 then some "V1_01" else none

/-- `EndPathSubType::try_from`. -/
def endSubName (st : Nat) : Option String :=
  if st = 1 then some "EndInstance" else if st = 255 then some "EndEntire" else none

/-- The `Debug` name of each `DeviceType` variant. -/
def deviceTypeName (dt : Nat) : String :=
  if dt = 1 then "Hardware" else if dt = 2 then "ACPI"
  else if dt = 3 then "Messaging" else if dt = 4 then "Media"
  else if dt = 5 then "BIOSBootSpec" else "End"

/-- The sub-type lookup the `Debug` implementation performs under each
major type. -/
def recognizedSub (dt st : Nat) : Option String :=
  if dt = 1 then hardwareSubName st else if dt = 2 then acpiSubName st
  else if dt = 3 then messagingSubName st else if dt = 4 then mediaSubName st
  else if dt = 5 then biosSubName st else endSubName st

/-- The byte values for which the Rust `DeviceType` enum is inhabited;
the `Debug` implementation matches on this enum, so its domain is exactly
these values. -/
def validDeviceType (dt : Nat) : Prop :=
  dt = 1 ∨ dt = 2 ∨ dt = 3 ∨ dt = 4 ∨ dt = 5 ∨ dt = 127

instance (dt : Nat) : Decidable (validDeviceType dt) := by
  unfold validDeviceType
  infer_instance

/-- `impl Debug for DevicePath`: the ordered field list the formatter
emits: `device_type`, then `sub_type` (variant name when recognized, raw
number otherwise), then `data` only for `Hardware/PCI`, `ACPI/ACPI`,
`Messaging/MAC` and `Messaging/IPv4` (the `Messaging/URI` payload decode is
commented out in the source), then `length`.  `none` only outside the
`DeviceType` enum's domain, where the source match is not defined. -/
def describe (buf : List Nat) : Option (List (String × DbgValue)) :=
  let dt := device_type buf
  let st := sub_type buf
  let pl := buf.drop 4
  let lenField : String × DbgValue := ("length", DbgValue.num (nodeLen buf))
  if dt = 1 then
    some (("device_type", DbgValue.vname "Hardware") ::
      (match hardwareSubName st with
       | some s => ("sub_type", DbgValue.vname s) ::
           (if st = 1 then [("data", DbgValue.pci (decodePCI pl))] else [])
       | none => [("sub_type", DbgValue.num st)]) ++ [lenField])
  else if dt = 2 then
    some (("device_type", DbgValue.vname "ACPI") ::
      (match acpiSubName st with
       | some s => ("sub_type", DbgValue.vname s) ::
           (if st = 1 then [("data", DbgValue.acpi (decodeACPI pl))] else [])
       | none => [("sub_type", DbgValue.num st)]) ++ [lenField])
  else if dt = 3 then
    some (("device_type", DbgValue.vname "Messaging") ::
      (match messagingSubName st with
       | some s => ("sub_type", DbgValue.vname s) ::
           (if st = 11 then [("data", DbgValue.mac (decodeMAC pl))]
            else if st = 12 then [("data", DbgValue.ipv4 (decodeIPv4 pl))]
            else [])
       | none => [("sub_type", DbgValue.num st)]) ++ [lenField])
  else if dt = 4 then
    some (("device_type", DbgValue.vname "Media") ::
      (match mediaSubName st with
       | some s => [("sub_type", DbgValue.vname s)]
       | none => [("sub_type", DbgValue.num st)]) ++ [lenField])
  else if dt = 5 then
    some (("device_type", DbgValue.vname "BIOSBootSpec") ::
      (match biosSubName st with
       | some s => [("sub_type", DbgValue.vname s)]
       | none => [("sub_type", DbgValue.num st)]) ++ [lenField])
  else if dt = 127 then
    some (("device_type", DbgValue.vname "End") ::
      (match endSubName st with
       | some s => [("sub_type", DbgValue.vname s)]
       | none => [("sub_type", DbgValue.num st)]) ++ [lenField])
  else none

/-- Rust `{:x}` formatting of a byte: minimal-width lowercase hex, no zero
padding. -/
def hexStr (n : Nat) : String := String.mk (Nat.toDigits 16 n)

/-- `impl Debug for MACDevicePath`: the address string built by
`format!` from the first six address bytes with `{:x}` and `:` separators. -/
def macAddressString (m : MACDevicePath) : String :=
  hexStr (readByte m.address 0) ++ ":" ++ hexStr (readByte m.address 1) ++ ":" ++
    hexStr (readByte m.address 2) ++ ":" ++ hexStr (readByte m.address 3) ++ ":" ++
    hexStr (readByte m.address 4) ++ ":" ++ hexStr (readByte m.address 5)

-- Helper lemmas ==============================================================

theorem stamp_length (dt st : Nat) (p : List Nat) :
    (stamp dt st p).length = 4 + p.length := by
  simp [stamp]; omega

theorem bytes_length (n : Node) : n.bytes.length = 4 + n.payload.length :=
  stamp_length n.device_type n.sub_type n.payload

theorem stamp_device_type (dt st : Nat) (p : List Nat) :
    device_type (stamp dt st p) = dt := rfl

theorem stamp_sub_type (dt st : Nat) (p : List Nat) :
    sub_type (stamp dt st p) = st := rfl

theorem stamp_drop4 (dt st : Nat) (p : List Nat) :
    (stamp dt st p).drop 4 = p := rfl

theorem bytes_device_type (n : Node) (rest : List Nat) :
    device_type (n.bytes ++ rest) = n.device_type := rfl

theorem bytes_sub_type (n : Node) (rest : List Nat) :
    sub_type (n.bytes ++ rest) = n.sub_type := rfl

theorem stamp_nodeLen (dt st : Nat) (p : List Nat) (h : p.length ≤ 65531) :
    nodeLen (stamp dt st p) = 4 + p.length := by
  simp only [nodeLen, readByte, stamp, List.getD_cons_succ, List.getD_cons_zero]
  omega

theorem bytes_nodeLen (n : Node) (h : n.payload.length ≤ 65531) (rest : List Nat) :
    nodeLen (n.bytes ++ rest) = 4 + n.payload.length := by
  simp only [nodeLen, readByte, Node.bytes, stamp, List.cons_append,
    List.getD_cons_succ, List.getD_cons_zero]
  omega

theorem bytes_drop (n : Node) (rest : List Nat) :
    (n.bytes ++ rest).drop (4 + n.payload.length) = rest := by
  rw [← bytes_length n, List.drop_left]

theorem next_bytes_cont (n : Node) (h1 : wfNode n) (h2 : continues n)
    (rest : List Nat) : next (n.bytes ++ rest) = some rest := by
  unfold next
  rw [bytes_device_type, bytes_sub_type, bytes_nodeLen n h1.2.2.1, bytes_drop]
  by_cases hdt : n.device_type = 127
  · simp [hdt, h2 hdt]
  · simp [hdt]

theorem walk_serializeChain (ns : List Node) (h : wfChain ns) (fuel : Nat)
    (hf : ns.length < fuel) :
    walk fuel (serializeChain ns) = some (chainSuffixes ns) := by
  induction ns generalizing fuel with
  | nil =>
    obtain ⟨f, rfl⟩ : ∃ f, fuel = f + 1 := ⟨fuel - 1, by omega⟩
    have hn : next endEntireNode = none := by decide
    simp [walk, hn, chainSuffixes, serializeChain]
  | cons n ns ih =>
    obtain ⟨f, rfl⟩ : ∃ f, fuel = f + 1 := ⟨fuel - 1, by omega⟩
    have hn := h n (List.mem_cons_self n ns)
    have hnext : next (serializeChain (n :: ns)) = some (serializeChain ns) :=
      next_bytes_cont n hn.1 hn.2 (serializeChain ns)
    have hrec := ih (fun m hm => h m (List.mem_cons_of_mem n hm)) f
      (by simp only [List.length_cons] at hf; omega)
    simp [walk, hnext, hrec, chainSuffixes]

theorem chainSuffixes_nodeLen_sum (ns : List Node) (h : wfChain ns) :
    ((chainSuffixes ns).map nodeLen).sum = sizeSum ns + 4 := by
  induction ns with
  | nil => decide
  | cons n ns ih =>
    have hn := h n (List.mem_cons_self n ns)
    have ih2 := ih (fun m hm => h m (List.mem_cons_of_mem n hm))
    have hlen : nodeLen (serializeChain (n :: ns)) = 4 + n.payload.length :=
      bytes_nodeLen n hn.1.2.2.1 (serializeChain ns)
    simp only [chainSuffixes, List.map_cons, List.sum_cons, hlen, sizeSum,
      List.map_cons, List.sum_cons] at ih2 ⊢
    omega

theorem chainByteLength_serializeChain (ns : List Node) (h : wfChain ns)
    (fuel : Nat) (hf : ns.length < fuel) :
    chainByteLength fuel (serializeChain ns) = some (sizeSum ns + 4) := by
  simp [chainByteLength, walk_serializeChain ns h fuel hf,
    chainSuffixes_nodeLen_sum ns h]

theorem chainBody_length (ns : List Node) : (chainBody ns).length = sizeSum ns := by
  induction ns with
  | nil => rfl
  | cons n ns ih =>
    simp only [chainBody, List.length_append, bytes_length, ih, sizeSum,
      List.map_cons, List.sum_cons]

theorem serializeChain_eq_body (ns : List Node) :
    serializeChain ns = chainBody ns ++ endEntireNode := by
  induction ns with
  | nil => rfl
  | cons n ns ih => simp [serializeChain, chainBody, ih]

theorem serializeChain_length (ns : List Node) :
    (serializeChain ns).length = sizeSum ns + 4 := by
  rw [serializeChain_eq_body, List.length_append, chainBody_length]
  rfl

theorem serializeChain_app (ns ms : List Node) :
    serializeChain (ns ++ ms) = chainBody ns ++ serializeChain ms := by
  induction ns with
  | nil => rfl
  | cons n ns ih => simp [serializeChain, chainBody, ih]

theorem sizeSum_app (ns ms : List Node) :
    sizeSum (ns ++ ms) = sizeSum ns + sizeSum ms := by
  simp [sizeSum]

theorem chainSuffixes_device_type (ns : List Node) :
    (chainSuffixes ns).map device_type = ns.map Node.device_type ++ [127] := by
  induction ns with
  | nil => decide
  | cons n ns ih =>
    have : device_type (serializeChain (n :: ns)) = n.device_type := rfl
    simp [chainSuffixes, this, ih]

theorem chainSuffixes_sub_type (ns : List Node) :
    (chainSuffixes ns).map sub_type = ns.map Node.sub_type ++ [255] := by
  induction ns with
  | nil => decide
  | cons n ns ih =>
    have : sub_type (serializeChain (n :: ns)) = n.sub_type := rfl
    simp [chainSuffixes, this, ih]

theorem list_len4 (l : List Nat) (h : l.length = 4) :
    ∃ a b c d, l = [a, b, c, d] := by
  rcases l with _ | ⟨a, l⟩
  · simp at h
  rcases l with _ | ⟨b, l⟩
  · simp at h
  rcases l with _ | ⟨c, l⟩
  · simp at h
  rcases l with _ | ⟨d, l⟩
  · simp at h
  rcases l with _ | ⟨e, l⟩
  · exact ⟨a, b, c, d, rfl⟩
  · simp at h

theorem decodePCI_bytes (p : PCIDevicePath) : decodePCI p.bytes = p := rfl

theorem decodeACPI_bytes (a : ACPIDevicePath) (h1 : a.hid < 4294967296)
    (h2 : a.uid < 4294967296) : decodeACPI a.bytes = a := by
  rcases a with ⟨hid, uid⟩
  have heval : decodeACPI (ACPIDevicePath.bytes ⟨hid, uid⟩) =
      ⟨hid % 256 + 256 * (hid / 256 % 256) + 65536 * (hid / 65536 % 256) +
        16777216 * (hid / 16777216 % 256),
       uid % 256 + 256 * (uid / 256 % 256) + 65536 * (uid / 65536 % 256) +
        16777216 * (uid / 16777216 % 256)⟩ := rfl
  rw [heval]
  simp only [ACPIDevicePath.mk.injEq] at h1 h2 ⊢
  constructor <;> omega

theorem decodeMAC_bytes (m : MACDevicePath) (h : m.address.length = 32) :
    decodeMAC m.bytes = m := by
  rcases m with ⟨addr, ift⟩
  simp only at h
  simp only [decodeMAC, MACDevicePath.bytes, readByte, MACDevicePath.mk.injEq]
  constructor
  · rw [← h, List.take_left]
  · rw [List.getD_append_right _ _ _ _ (by omega), h]
    simp

theorem decodeIPv4_bytes (ip : IPv4DevicePath) (h1 : ip.local_ip.length = 4)
    (h2 : ip.remote_ip.length = 4) (h3 : ip.local_port < 65536)
    (h4 : ip.remote_port < 65536) (h5 : ip.gateway_ip.length = 4)
    (h6 : ip.subnet_mask.length = 4) : decodeIPv4 ip.bytes = ip := by
  rcases ip with ⟨li, ri, lp, rp, pr, st, gw, sn⟩
  simp only at h1 h2 h3 h4 h5 h6
  obtain ⟨a0, a1, a2, a3, rfl⟩ := list_len4 li h1
  obtain ⟨b0, b1, b2, b3, rfl⟩ := list_len4 ri h2
  obtain ⟨g0, g1, g2, g3, rfl⟩ := list_len4 gw h5
  obtain ⟨s0, s1, s2, s3, rfl⟩ := list_len4 sn h6
  have heval : decodeIPv4 (IPv4DevicePath.bytes
      ⟨[a0, a1, a2, a3], [b0, b1, b2, b3], lp, rp, pr, st,
        [g0, g1, g2, g3], [s0, s1, s2, s3]⟩) =
      ⟨[a0, a1, a2, a3], [b0, b1, b2, b3],
        lp % 256 + 256 * (lp / 256 % 256), rp % 256 + 256 * (rp / 256 % 256),
        pr, st, [g0, g1, g2, g3], [s0, s1, s2, s3]⟩ := rfl
  rw [heval]
  simp only [IPv4DevicePath.mk.injEq, and_true, true_and]
  exact ⟨by omega, by omega⟩

theorem describe_stamp_pci (pay : List Nat) (h : pay.length ≤ 65531) :
    describe (stamp 1 1 pay) =
      some [("device_type", DbgValue.vname "Hardware"),
            ("sub_type", DbgValue.vname "PCI"),
            ("data", DbgValue.pci (decodePCI pay)),
            ("length", DbgValue.num (4 + pay.length))] := by
  have hl := stamp_nodeLen 1 1 pay h
  simp [describe, stamp_device_type, stamp_sub_type, stamp_drop4, hl,
    hardwareSubName]

theorem describe_stamp_acpi (pay : List Nat) (h : pay.length ≤ 65531) :
    describe (stamp 2 1 pay) =
      some [("device_type", DbgValue.vname "ACPI"),
            ("sub_type", DbgValue.vname "ACPI"),
            ("data", DbgValue.acpi (decodeACPI pay)),
            ("length", DbgValue.num (4 + pay.length))] := by
  have hl := stamp_nodeLen 2 1 pay h
  simp [describe, stamp_device_type, stamp_sub_type, stamp_drop4, hl,
    acpiSubName]

theorem describe_stamp_mac (pay : List Nat) (h : pay.length ≤ 65531) :
    describe (stamp 3 11 pay) =
      some [("device_type", DbgValue.vname "Messaging"),
            ("sub_type", DbgValue.vname "MAC"),
            ("data", DbgValue.mac (decodeMAC pay)),
            ("length", DbgValue.num (4 + pay.length))] := by
  have hl := stamp_nodeLen 3 11 pay h
  simp [describe, stamp_device_type, stamp_sub_type, stamp_drop4, hl,
    messagingSubName]

theorem describe_stamp_ipv4 (pay : List Nat) (h : pay.length ≤ 65531) :
    describe (stamp 3 12 pay) =
      some [("device_type", DbgValue.vname "Messaging"),
            ("sub_type", DbgValue.vname "IPv4"),
            ("data", DbgValue.ipv4 (decodeIPv4 pay)),
            ("length", DbgValue.num (4 + pay.length))] := by
  have hl := stamp_nodeLen 3 12 pay h
  simp [describe, stamp_device_type, stamp_sub_type, stamp_drop4, hl,
    messagingSubName]

theorem describe_stamp_uri (pay : List Nat) (h : pay.length ≤ 65531) :
    describe (stamp 3 24 pay) =
      some [("device_type", DbgValue.vname "Messaging"),
            ("sub_type", DbgValue.vname "URI"),
            ("length", DbgValue.num (4 + pay.length))] := by
  have hl := stamp_nodeLen 3 24 pay h
  simp [describe, stamp_device_type, stamp_sub_type, hl, messagingSubName]

-- Claim theorems =============================================================

/-- Claim C4: `DevicePath::next` returns `None` exactly for an `End` (0x7F)
node whose sub-type is `EndEntire` (0xFF) or unrecognized (neither 0x01 nor
0xFF); for `End`/`EndInstance` and for every non-`End` node it returns the
node located `total_length` bytes past the current one. -/
theorem next_terminal_iff (buf : List Nat) :
    (next buf = none ↔
      device_type buf = 127 ∧
        (sub_type buf = 255 ∨ (sub_type buf ≠ 1 ∧ sub_type buf ≠ 255))) ∧
    ((device_type buf = 127 ∧ sub_type buf = 1) ∨ device_type buf ≠ 127 →
      next buf = some (buf.drop (nodeLen buf))) := by
  unfold next
  by_cases h1 : device_type buf = 127 <;> by_cases h2 : sub_type buf = 1 <;>
    simp [h1, h2]
  all_goals omega

theorem next_terminal_iff_witness :
    next [127, 255, 4, 0] = none ∧
      next [1, 1, 4, 0] = some (List.drop (nodeLen [1, 1, 4, 0]) [1, 1, 4, 0]) :=
  ⟨(next_terminal_iff [127, 255, 4, 0]).1.mpr (by decide),
   (next_terminal_iff [1, 1, 4, 0]).2 (by decide)⟩

/-- Claim C5 counterexample: for the `End` node with unrecognized sub-type
0x02, traversal stops (`next` is `None`); it does not continue to the node
`total_length` bytes further, contrary to the claim. -/
theorem next_end_unrecognized_cex :
    next [127, 2, 4, 0] = none ∧
      next [127, 2, 4, 0] ≠ some (List.drop (nodeLen [127, 2, 4, 0]) [127, 2, 4, 0]) := by
  decide

/-- Claim C5 (amended): for an `End` node, traversal continues past the node
only for sub-type `EndInstance` (0x01); `EndEntire` and every unrecognized
`End` sub-type alike are terminal. -/
theorem next_end_spec (buf : List Nat) (h : device_type buf = 127) :
    (sub_type buf = 1 → next buf = some (buf.drop (nodeLen buf))) ∧
    (sub_type buf ≠ 1 → next buf = none) := by
  unfold next
  by_cases h2 : sub_type buf = 1 <;> simp [h, h2]

theorem next_end_spec_witness :
    next [127, 1, 4, 0] = some (List.drop (nodeLen [127, 1, 4, 0]) [127, 1, 4, 0]) :=
  (next_end_spec [127, 1, 4, 0] (by decide)).1 (by decide)

/-- Claim C10: traversal performs no `total_length` validation: a non-`End`
node with `total_length = 0` makes `next` return the node at the same
position, so `walk` never reaches a terminal node no matter how much fuel
it gets; on a well-formed chain (positive-length non-terminal nodes
reaching an `End`/`EndEntire` record) `walk` does terminate. -/
theorem walk_divergence (buf : List Nat) (h1 : device_type buf ≠ 127)
    (h2 : nodeLen buf = 0) :
    next buf = some buf ∧ (∀ fuel, walk fuel buf = none) ∧
      ∀ ns : List Node, wfChain ns →
        walk (ns.length + 1) (serializeChain ns) = some (chainSuffixes ns) := by
  have hnext : next buf = some buf := by
    unfold next
    simp [h1, h2]
  refine ⟨hnext, ?_, ?_⟩
  · intro fuel
    induction fuel with
    | zero => rfl
    | succ f ih => simp [walk, hnext, ih]
  · intro ns h
    exact walk_serializeChain ns h (ns.length + 1) (by omega)

theorem walk_divergence_witness :
    next [1, 1, 0, 0] = some [1, 1, 0, 0] ∧ walk 5 [1, 1, 0, 0] = none :=
  ⟨(walk_divergence [1, 1, 0, 0] (by decide) (by decide)).1,
   (walk_divergence [1, 1, 0, 0] (by decide) (by decide)).2.1 5⟩

/-- Claim C2: `new1 x` holds x's node immediately followed by the
`End`/`EndEntire` terminator (`device_type` 0x7F, `sub_type` 0xFF,
`total_length` 4), and `new2 x y` holds x's node, then y's node in the
given input order, then that terminator; walking either chain visits
exactly those nodes in order and ends at the terminator. -/
theorem new_chain_spec (x y : Node) (hx : wfNode x) (hcx : continues x)
    (hy : wfNode y) (hcy : continues y) :
    new1 x = x.bytes ++ endEntireNode ∧
    device_type endEntireNode = 127 ∧ sub_type endEntireNode = 255 ∧
    nodeLen endEntireNode = 4 ∧
    walk 2 (new1 x) = some [new1 x, endEntireNode] ∧
    new2 x y = x.bytes ++ y.bytes ++ endEntireNode ∧
    walk 3 (new2 x y) = some [new2 x y, y.bytes ++ endEntireNode, endEntireNode] := by
  have h1 : wfChain [x] := by
    intro n hn
    rw [List.mem_singleton] at hn
    subst hn
    exact ⟨hx, hcx⟩
  have h2 : wfChain [x, y] := by
    intro n hn
    rcases List.mem_cons.mp hn with rfl | hn
    · exact ⟨hx, hcx⟩
    · rw [List.mem_singleton] at hn
      subst hn
      exact ⟨hy, hcy⟩
  refine ⟨rfl, rfl, rfl, by decide, ?_, rfl, ?_⟩
  · have hw := walk_serializeChain [x] h1 2 (by simp)
    simpa [serializeChain, chainSuffixes, new1] using hw
  · have hw := walk_serializeChain [x, y] h2 3 (by simp)
    simpa [serializeChain, chainSuffixes, new2] using hw

theorem new_chain_spec_witness :
    walk 2 (new1 ⟨1, 1, [0, 3]⟩) = some [new1 ⟨1, 1, [0, 3]⟩, endEntireNode] :=
  (new_chain_spec ⟨1, 1, [0, 3]⟩ ⟨2, 1, [0, 0, 0, 0, 0, 0, 0, 0]⟩ (by decide)
    (by decide) (by decide) (by decide)).2.2.2.2.1

/-- Claim C1: for well-formed chains A and B, `append` computes `len_a` and
`len_b` as the walks' `total_length` sums (terminators included), builds
the buffer of `len_a + len_b - 4` bytes holding the first `len_a - 4` bytes
of A (all of A but its 4-byte terminator) followed by all `len_b` bytes of
B, and walking the result visits A's non-terminator nodes in their
original order, then every node of B, ending at B's terminator. -/
theorem append_spec (nsA nsB : List Node) (hA : wfChain nsA) (hB : wfChain nsB)
    (fuel : Nat) (hfA : nsA.length < fuel) (hfB : nsB.length < fuel) :
    chainByteLength fuel (serializeChain nsA) = some (sizeSum nsA + 4) ∧
    chainByteLength fuel (serializeChain nsB) = some (sizeSum nsB + 4) ∧
    append fuel (serializeChain nsA) (serializeChain nsB) =
      some (serializeChain (nsA ++ nsB)) ∧
    (serializeChain (nsA ++ nsB)).length =
      (sizeSum nsA + 4) + (sizeSum nsB + 4) - 4 ∧
    walk (nsA.length + nsB.length + 1) (serializeChain (nsA ++ nsB)) =
      some (chainSuffixes (nsA ++ nsB)) ∧
    (chainSuffixes (nsA ++ nsB)).map device_type =
      (nsA.map Node.device_type ++ nsB.map Node.device_type) ++ [127] := by
  have hAB : wfChain (nsA ++ nsB) := by
    intro m hm
    rcases List.mem_append.mp hm with h | h
    · exact hA m h
    · exact hB m h
  have hcA := chainByteLength_serializeChain nsA hA fuel hfA
  have hcB := chainByteLength_serializeChain nsB hB fuel hfB
  refine ⟨hcA, hcB, ?_, ?_, ?_, ?_⟩
  · simp only [append, hcA, hcB]
    congr 1
    rw [serializeChain_app]
    congr 1
    · rw [serializeChain_eq_body nsA, Nat.add_sub_cancel, ← chainBody_length nsA,
        List.take_left]
    · rw [← serializeChain_length nsB, List.take_length]
  · rw [serializeChain_length, sizeSum_app]
    omega
  · refine walk_serializeChain _ hAB _ ?_
    simp only [List.length_append]
    omega
  · rw [chainSuffixes_device_type, List.map_append]

theorem append_spec_witness :
    append 2 (serializeChain [⟨1, 1, [0, 3]⟩])
        (serializeChain [⟨2, 1, [0, 0, 0, 0, 0, 0, 0, 0]⟩]) =
      some (serializeChain (([⟨1, 1, [0, 3]⟩] : List Node) ++
        [⟨2, 1, [0, 0, 0, 0, 0, 0, 0, 0]⟩])) :=
  (append_spec [⟨1, 1, [0, 3]⟩] [⟨2, 1, [0, 0, 0, 0, 0, 0, 0, 0]⟩] (by decide)
    (by decide) 2 (by decide) (by decide)).2.2.1

/-- Claim C7: the chain byte length (the walk's `total_length` sum,
terminator included) of a chain built from nodes of sizes s1..sn is
s1 + ... + sn + 4; concretely, the chain holding one `Hardware`/`PCI` node
with payload `{function: 0, device: 3}` has byte length 4 + 2 + 4 = 10, and
describing its first node reports `Hardware`, `PCI`, function 0, device 3. -/
theorem chain_byte_length_spec (ns : List Node) (h : wfChain ns) (fuel : Nat)
    (hf : ns.length < fuel) :
    chainByteLength fuel (serializeChain ns) = some (sizeSum ns + 4) ∧
    chainByteLength 2 (new1 ⟨1, 1, [0, 3]⟩) = some 10 ∧
    describe (new1 ⟨1, 1, [0, 3]⟩) =
      some [("device_type", DbgValue.vname "Hardware"),
            ("sub_type", DbgValue.vname "PCI"),
            ("data", DbgValue.pci ⟨0, 3⟩),
            ("length", DbgValue.num 6)] :=
  ⟨chainByteLength_serializeChain ns h fuel hf, by decide, by decide⟩

theorem chain_byte_length_spec_witness :
    chainByteLength 2 (serializeChain [⟨1, 1, [0, 3]⟩]) =
      some (sizeSum [⟨1, 1, [0, 3]⟩] + 4) :=
  (chain_byte_length_spec [⟨1, 1, [0, 3]⟩] (by decide) 2 (by decide)).1

theorem stamp_wrap (dt st : Nat) (p : List Nat) (h : p.length = 65532) :
    stamp dt st p = dt :: st :: 0 :: 0 :: p ∧ nodeLen (stamp dt st p) = 0 := by
  constructor
  · simp only [stamp, h]
  · simp only [nodeLen, readByte, stamp, h, List.getD_cons_succ,
      List.getD_cons_zero]

/-- Claim C6 counterexample: stamping a 65532-byte payload does not fail:
the node is written anyway and its 16-bit `total_length` field silently
wraps to (4 + 65532) mod 2^16 = 0. -/
theorem stamp_oversize_cex :
    stamp 3 24 (List.replicate 65532 0) =
      3 :: 24 :: 0 :: 0 :: List.replicate 65532 0 ∧
    nodeLen (stamp 3 24 (List.replicate 65532 0)) = 0 :=
  stamp_wrap 3 24 (List.replicate 65532 0) (by rw [List.length_replicate])

/-- Claim C6 (amended): node encoding never fails and performs no size
check: `stamp` writes the header with `total_length = (4 + len) mod 2^16`
(the `as u16` cast truncates) followed by a verbatim copy of the payload;
whenever the payload is at most 65531 bytes, `total_length = 4 + len`
exactly. -/
theorem stamp_spec (dt st : Nat) (p rest : List Nat) :
    device_type (stamp dt st p ++ rest) = dt ∧
    sub_type (stamp dt st p ++ rest) = st ∧
    nodeLen (stamp dt st p ++ rest) = (4 + p.length) % 65536 ∧
    (stamp dt st p).drop 4 = p ∧
    (p.length ≤ 65531 → nodeLen (stamp dt st p ++ rest) = 4 + p.length) := by
  have h3 : nodeLen (stamp dt st p ++ rest) = (4 + p.length) % 65536 := by
    simp only [nodeLen, readByte, stamp, List.cons_append, List.getD_cons_succ,
      List.getD_cons_zero]
    omega
  exact ⟨rfl, rfl, h3, rfl, fun h => by rw [h3]; omega⟩

theorem stamp_spec_witness :
    nodeLen (stamp 1 1 [0, 3] ++ []) = 4 + (List.length [0, 3]) :=
  (stamp_spec 1 1 [0, 3] []).2.2.2.2 (by decide)

/-- Claim C3 counterexample: the `Messaging`/`URI` payload decode is
commented out in the source `Debug` implementation, so describing a freshly
stamped URI node reports no `data` field at all: the URI payload bytes are
lost from the rendering. -/
theorem describe_uri_cex :
    describe (stamp 3 24 [104, 105]) =
      some [("device_type", DbgValue.vname "Messaging"),
            ("sub_type", DbgValue.vname "URI"),
            ("length", DbgValue.num 6)] ∧
    ∀ kv ∈ [(("device_type" : String), DbgValue.vname "Messaging"),
            ("sub_type", DbgValue.vname "URI"),
            ("length", DbgValue.num 6)], kv.1 ≠ "data" := by
  decide

/-- Claim C3 (amended): for the supported tags `Hardware`/`PCI`,
`ACPI`/`ACPI`, `Messaging`/`MAC` and `Messaging`/`IPv4`, describing a
freshly stamped node reports a `data` field holding exactly the payload's
fields, in declaration order with no field lost; for `Messaging`/`URI` the
source's payload decode is disabled, so only the tag and length appear. -/
theorem describe_roundtrip (p : PCIDevicePath) (a : ACPIDevicePath)
    (m : MACDevicePath) (ip : IPv4DevicePath)
    (ha1 : a.hid < 4294967296) (ha2 : a.uid < 4294967296)
    (hm : m.address.length = 32)
    (hi1 : ip.local_ip.length = 4) (hi2 : ip.remote_ip.length = 4)
    (hi3 : ip.local_port < 65536) (hi4 : ip.remote_port < 65536)
    (hi5 : ip.gateway_ip.length = 4) (hi6 : ip.subnet_mask.length = 4)
    (u : List Nat) (hu : u.length ≤ 65531) :
    describe (stamp 1 1 p.bytes) =
      some [("device_type", DbgValue.vname "Hardware"),
            ("sub_type", DbgValue.vname "PCI"),
            ("data", DbgValue.pci p), ("length", DbgValue.num 6)] ∧
    describe (stamp 2 1 a.bytes) =
      some [("device_type", DbgValue.vname "ACPI"),
            ("sub_type", DbgValue.vname "ACPI"),
            ("data", DbgValue.acpi a), ("length", DbgValue.num 12)] ∧
    describe (stamp 3 11 m.bytes) =
      some [("device_type", DbgValue.vname "Messaging"),
            ("sub_type", DbgValue.vname "MAC"),
            ("data", DbgValue.mac m), ("length", DbgValue.num 37)] ∧
    describe (stamp 3 12 ip.bytes) =
      some [("device_type", DbgValue.vname "Messaging"),
            ("sub_type", DbgValue.vname "IPv4"),
            ("data", DbgValue.ipv4 ip), ("length", DbgValue.num 26)] ∧
    describe (stamp 3 24 u) =
      some [("device_type", DbgValue.vname "Messaging"),
            ("sub_type", DbgValue.vname "URI"),
            ("length", DbgValue.num (4 + u.length))] := by
  refine ⟨?_, ?_, ?_, ?_, describe_stamp_uri u hu⟩
  · rw [describe_stamp_pci p.bytes (by simp [PCIDevicePath.bytes]),
      decodePCI_bytes]
    simp [PCIDevicePath.bytes]
  · rw [describe_stamp_acpi a.bytes (by simp [ACPIDevicePath.bytes, le32]),
      decodeACPI_bytes a ha1 ha2]
    simp [ACPIDevicePath.bytes, le32]
  · rw [describe_stamp_mac m.bytes (by simp [MACDevicePath.bytes, hm]),
      decodeMAC_bytes m hm]
    simp [MACDevicePath.bytes, hm]
  · rw [describe_stamp_ipv4 ip.bytes
      (by simp [IPv4DevicePath.bytes, le16, hi1, hi2, hi5, hi6]),
      decodeIPv4_bytes ip hi1 hi2 hi3 hi4 hi5 hi6]
    simp [IPv4DevicePath.bytes, le16, hi1, hi2, hi5, hi6]

theorem describe_roundtrip_witness :
    describe (stamp 1 1 (PCIDevicePath.bytes ⟨0, 3⟩)) =
      some [("device_type", DbgValue.vname "Hardware"),
            ("sub_type", DbgValue.vname "PCI"),
            ("data", DbgValue.pci ⟨0, 3⟩), ("length", DbgValue.num 6)] :=
  (describe_roundtrip ⟨0, 3⟩ ⟨1, 1⟩ ⟨List.replicate 32 0, 1⟩
    ⟨[0, 0, 0, 0], [0, 0, 0, 0], 0, 0, 6, 0, [0, 0, 0, 0], [0, 0, 0, 0]⟩
    (by decide) (by decide) (by decide) (by decide) (by decide) (by decide)
    (by decide) (by decide) (by decide) [104] (by decide)).1

/-- Claim C8: the `Debug` implementation is total on its domain (every
inhabitant of the `DeviceType` enum combined with any sub-type byte): it
always yields a field list, and for a sub-type unrecognized under its major
type it renders the raw numeric sub-type and decodes no payload. -/
theorem describe_total (buf : List Nat) (h : validDeviceType (device_type buf)) :
    (describe buf).isSome = true ∧
    (recognizedSub (device_type buf) (sub_type buf) = none →
      describe buf =
        some [("device_type", DbgValue.vname (deviceTypeName (device_type buf))),
              ("sub_type", DbgValue.num (sub_type buf)),
              ("length", DbgValue.num (nodeLen buf))]) := by
  rcases h with h | h | h | h | h | h <;>
    refine ⟨by simp [describe, h], fun h2 => ?_⟩ <;>
    · simp [recognizedSub, h] at h2
      simp [describe, h, h2, deviceTypeName]

theorem describe_total_witness :
    describe (stamp 4 99 []) =
      some [("device_type", DbgValue.vname "Media"),
            ("sub_type", DbgValue.num 99),
            ("length", DbgValue.num 4)] :=
  (describe_total (stamp 4 99 []) (by decide)).2 (by decide)

/-- Claim C9 counterexample: the source formats each MAC address octet with
`{:x}` (minimal-width hex, no zero padding), so the address bytes
02:00:00:00:00:01 do not render as the claimed "02:00:00:00:00:01". -/
theorem mac_render_cex :
    macAddressString ⟨[2, 0, 0, 0, 0, 1] ++ List.replicate 26 0, 1⟩ ≠
      "02:00:00:00:00:01" := by
  decide

/-- Claim C9 (amended): describing the `Messaging`/`MAC` node stamped with
address bytes 02:00:00:00:00:01 and hardware type Ethernet (1) reports the
MAC payload, and the `Debug` address string is the colon-separated
lowercase hex octets without zero padding: "2:0:0:0:0:1". -/
theorem mac_render_spec :
    describe (stamp 3 11 (MACDevicePath.bytes
        ⟨[2, 0, 0, 0, 0, 1] ++ List.replicate 26 0, 1⟩)) =
      some [("device_type", DbgValue.vname "Messaging"),
            ("sub_type", DbgValue.vname "MAC"),
            ("data", DbgValue.mac ⟨[2, 0, 0, 0, 0, 1] ++ List.replicate 26 0, 1⟩),
            ("length", DbgValue.num 37)] ∧
    macAddressString ⟨[2, 0, 0, 0, 0, 1] ++ List.replicate 26 0, 1⟩ =
      "2:0:0:0:0:1" := by
  decide

end DevicePath
